import Mathlib

/-!
Verification of the layered XDG base-directory resolution engine
(`src/base_directories.rs` of rust-xdg).

The embedding is shallow:

* `XPath` models `std::path::PathBuf`: an absoluteness flag plus the list
  of normal components.  `XPath.join` follows Rust's `Path::join` (an
  absolute argument replaces the receiver), `XPath.parent` follows
  `Path::parent`.
* `Fs` models the filesystem world an operation runs against: `metadata`
  (a probe returning the permission mode bits or an I/O error code),
  `readDir` (directory enumeration), and for the creating operations a
  set `dirs` of existing directories, a set `files` of existing files and
  a `createErr` oracle giving the error a `create_dir_all` call would hit.
  Every operation takes the world explicitly, so "re-evaluated on every
  call" and "pure, no I/O" are visible in the types.
* Environment lookup is the injected closure of the source
  (`T: Fn(&str) -> Option<OsString>`), modelled as `String → Option String`;
  `std::env::home_dir()` is the external platform home lookup, passed as
  `platform_home`.

Every definition below mirrors the function of the same name in
`base_directories.rs`.
-/

namespace Xdg

/-- A filesystem path: `absolute` mirrors `Path::is_absolute`, `components`
the list of normal components. -/
structure XPath where
  absolute : Bool
  components : List String
deriving DecidableEq, Repr

/-- Rust `Path::join`: an absolute argument replaces `self`, a relative one
is appended. -/
def XPath.join (p q : XPath) : XPath :=
  if q.absolute then q else ⟨p.absolute, p.components ++ q.components⟩

/-- Rust `Path::parent`: `None` for `""` and `"/"`, otherwise the path
without its final component. -/
def XPath.parent (p : XPath) : Option XPath :=
  match p.components with
  | [] => none
  | _ :: _ => some ⟨p.absolute, p.components.dropLast⟩

/-- Rust `OsStr::is_empty` on the path's text: the empty relative path. -/
def XPath.isEmpty (p : XPath) : Bool :=
  !p.absolute && p.components.isEmpty

/-- The components as Rust's `Components` iterator yields them: a root
marker first when the path is absolute. -/
def XPath.fullComponents (p : XPath) : List String :=
  (if p.absolute then ["/"] else []) ++ p.components

/-- Rust `Path::starts_with`: component-wise prefix test. -/
def XPath.starts_with (p base : XPath) : Bool :=
  base.fullComponents.isPrefixOf p.fullComponents

/-- The path together with every ancestor (including the root of its
spelling): exactly the set of directories `fs::create_dir_all` guarantees
to exist after it succeeds on the path. -/
def XPath.selfAndAncestors (p : XPath) : List XPath :=
  p.components.inits.map (fun cs => XPath.mk p.absolute cs)

/-- Split a character list at every occurrence of the separator, keeping
empty segments (the list analogue of splitting path text). -/
def splitSep (sep : Char) : List Char → List (List Char)
  | [] => [[]]
  | c :: rest =>
    match splitSep sep rest with
    | [] => [[]]
    | cur :: done => if c = sep then [] :: cur :: done else (c :: cur) :: done

/-- Whether path text denotes an absolute path: it begins with the
separator. -/
def isAbsoluteText (cs : List Char) : Bool :=
  match cs with
  | c :: _ => c == '/'
  | [] => false

/-- Parse path text as a path: absolute iff it begins with the separator,
components the non-empty segments. -/
def parseChars (cs : List Char) : XPath :=
  ⟨isAbsoluteText cs, ((splitSep '/' cs).filter (fun l => l ≠ [])).map (fun l => String.mk l)⟩

/-- Parse the text of an environment value as a path. -/
def parsePath (s : String) : XPath :=
  parseChars s.data

/-- Helper `abspath` of `with_env_impl`: keep the value only if absolute. -/
def abspath (s : String) : Option XPath :=
  let path := parsePath s
  if path.absolute then some path else none

/-- Helper `abspaths` of `with_env_impl`: split on the platform path-list
separator, keep the absolute entries, `none` when nothing remains. -/
def abspaths (s : String) : Option (List XPath) :=
  let paths := ((splitSep ':' s.data).map parseChars).filter (fun p => p.absolute)
  if paths.isEmpty then none else some paths

/-- The filesystem world: probe results for the reading operations and
directory state plus a creation-failure oracle for the writing ones. -/
structure Fs where
  metadata : XPath → Except Nat Nat
  readDir : XPath → Except Nat (List String)
  createErr : XPath → Option Nat
  dirs : List XPath
  files : List XPath

/-- Whether an `Except` is `ok`. -/
def exOk {ε α : Type} : Except ε α → Bool
  | .ok _ => true
  | .error _ => false

/-- Source `path_exists`: a successful `fs::metadata` probe. -/
def path_exists (fs : Fs) (p : XPath) : Bool :=
  exOk (fs.metadata p)

/-- Source `fs::create_dir_all`: on success the path and all its ancestors
exist as directories; files are never touched. -/
def Fs.create_dir_all (fs : Fs) (p : XPath) : Except Nat Fs :=
  match fs.createErr p with
  | some e => .error e
  | none => .ok { fs with dirs := fs.dirs ++ p.selfAndAncestors }

/-- The resolved directory configuration, field for field the Rust
`BaseDirectories` struct. -/
structure BaseDirectories where
  home_dir : Option XPath
  shared_prefix : XPath
  user_prefix : XPath
  data_home : Option XPath
  config_home : Option XPath
  cache_home : Option XPath
  state_home : Option XPath
  data_dirs : List XPath
  config_dirs : List XPath
  runtime_dir : Option XPath
deriving Repr

/-- The error kinds of the source's `ErrorKind`; the `Inaccessible` variant
carries the underlying I/O error code, `Insecure` the observed mode. -/
inductive ErrorKind where
  | HomeMissing
  | XdgRuntimeDirInaccessible (dir : XPath) (ioError : Nat)
  | XdgRuntimeDirInsecure (dir : XPath) (permissions : Nat)
  | XdgRuntimeDirMissing
deriving DecidableEq, Repr

/-- An `io::Result` error: either a converted `xdg` error or a raw I/O
error code. -/
inductive IoError where
  | xdg (e : ErrorKind)
  | io (code : Nat)
deriving DecidableEq, Repr

/-- Wrap the raw I/O error of a creating call, as `?` does through
`From<Error> for io::Error`. -/
def ioWrap {α : Type} : Except Nat α → Except IoError α
  | .ok a => .ok a
  | .error e => .error (.io e)

/-- Source `with_env_impl`: build the configuration from the constructor
arguments, the injected environment lookup and the platform home lookup. -/
def with_env_impl (pfx profile home : XPath) (env_var : String → Option String)
    (platform_home : Option XPath) : BaseDirectories :=
  let home := if home.isEmpty then platform_home else some home
  let data_home := ((env_var "XDG_DATA_HOME").bind abspath).orElse
    (fun _ => home.map (fun h => h.join (parsePath ".local/share")))
  let config_home := ((env_var "XDG_CONFIG_HOME").bind abspath).orElse
    (fun _ => home.map (fun h => h.join (parsePath ".config")))
  let cache_home := ((env_var "XDG_CACHE_HOME").bind abspath).orElse
    (fun _ => home.map (fun h => h.join (parsePath ".cache")))
  let state_home := ((env_var "XDG_STATE_HOME").bind abspath).orElse
    (fun _ => home.map (fun h => h.join (parsePath ".local/state")))
  let data_dirs := ((env_var "XDG_DATA_DIRS").bind abspaths).getD
    [parsePath "/usr/local/share", parsePath "/usr/share"]
  let config_dirs := ((env_var "XDG_CONFIG_DIRS").bind abspaths).getD
    [parsePath "/etc/xdg"]
  let runtime_dir := (env_var "XDG_RUNTIME_DIR").bind abspath
  { home_dir := home,
    user_prefix := pfx.join profile,
    shared_prefix := pfx,
    data_home := data_home,
    config_home := config_home,
    cache_home := cache_home,
    state_home := state_home,
    data_dirs := data_dirs,
    config_dirs := config_dirs,
    runtime_dir := runtime_dir }

/-- Source `get_runtime_directory`: fail when unset, probe enumeration,
probe the mode bits, reject any group/other bit, else return the path.
Nothing is cached: the world is consulted on every call. -/
def BaseDirectories.get_runtime_directory (fs : Fs) (bd : BaseDirectories) :
    Except ErrorKind XPath :=
  match bd.runtime_dir with
  | some runtime_dir =>
    match fs.readDir runtime_dir with
    | .error e => .error (.XdgRuntimeDirInaccessible runtime_dir e)
    | .ok _ =>
      match fs.metadata runtime_dir with
      | .error e => .error (.XdgRuntimeDirInaccessible runtime_dir e)
      | .ok permissions =>
        if permissions &&& 0o077 ≠ 0 then
          .error (.XdgRuntimeDirInsecure runtime_dir permissions)
        else
          .ok runtime_dir
  | none => .error .XdgRuntimeDirMissing

/-- Source `has_runtime_directory`: whether `get_runtime_directory`
succeeds, re-run each call. -/
def BaseDirectories.has_runtime_directory (fs : Fs) (bd : BaseDirectories) : Bool :=
  exOk (bd.get_runtime_directory fs)

/-- Source `get_config_file`: pure join under the category root, no world
argument at all. -/
def BaseDirectories.get_config_file (bd : BaseDirectories) (path : XPath) : Option XPath :=
  bd.config_home.map (fun home => home.join (bd.user_prefix.join path))

/-- Source `get_data_file`. -/
def BaseDirectories.get_data_file (bd : BaseDirectories) (path : XPath) : Option XPath :=
  bd.data_home.map (fun home => home.join (bd.user_prefix.join path))

/-- Source `get_cache_file`. -/
def BaseDirectories.get_cache_file (bd : BaseDirectories) (path : XPath) : Option XPath :=
  bd.cache_home.map (fun home => home.join (bd.user_prefix.join path))

/-- Source `get_state_file`. -/
def BaseDirectories.get_state_file (bd : BaseDirectories) (path : XPath) : Option XPath :=
  bd.state_home.map (fun home => home.join (bd.user_prefix.join path))

/-- Source `get_runtime_file`: requires the guard, then a pure join. -/
def BaseDirectories.get_runtime_file (fs : Fs) (bd : BaseDirectories) (path : XPath) :
    Except IoError XPath :=
  match bd.get_runtime_directory fs with
  | .error e => .error (.xdg e)
  | .ok runtime_dir => .ok (runtime_dir.join (bd.user_prefix.join path))

/-- Source free function `write_file`: create the leading directories of
the joined path (its parent, or the whole base when the relative path has
no parent), then return the joined path without creating it. -/
def write_file (fs : Fs) (home path : XPath) : Except Nat (Fs × XPath) :=
  match path.parent with
  | some parent =>
    match fs.create_dir_all (home.join parent) with
    | .error e => .error e
    | .ok fs2 => .ok (fs2, home.join path)
  | none =>
    match fs.create_dir_all home with
    | .error e => .error e
    | .ok fs2 => .ok (fs2, home.join path)

/-- Source `place_config_file`. -/
def BaseDirectories.place_config_file (fs : Fs) (bd : BaseDirectories) (path : XPath) :
    Except IoError (Fs × XPath) :=
  match bd.config_home with
  | none => .error (.xdg .HomeMissing)
  | some config_home => ioWrap (write_file fs config_home (bd.user_prefix.join path))

/-- Source `place_data_file`. -/
def BaseDirectories.place_data_file (fs : Fs) (bd : BaseDirectories) (path : XPath) :
    Except IoError (Fs × XPath) :=
  match bd.data_home with
  | none => .error (.xdg .HomeMissing)
  | some data_home => ioWrap (write_file fs data_home (bd.user_prefix.join path))

/-- Source `place_cache_file`. -/
def BaseDirectories.place_cache_file (fs : Fs) (bd : BaseDirectories) (path : XPath) :
    Except IoError (Fs × XPath) :=
  match bd.cache_home with
  | none => .error (.xdg .HomeMissing)
  | some cache_home => ioWrap (write_file fs cache_home (bd.user_prefix.join path))

/-- Source `place_state_file`. -/
def BaseDirectories.place_state_file (fs : Fs) (bd : BaseDirectories) (path : XPath) :
    Except IoError (Fs × XPath) :=
  match bd.state_home with
  | none => .error (.xdg .HomeMissing)
  | some state_home => ioWrap (write_file fs state_home (bd.user_prefix.join path))

/-- Source `place_runtime_file`: the guard first, then `write_file`. -/
def BaseDirectories.place_runtime_file (fs : Fs) (bd : BaseDirectories) (path : XPath) :
    Except IoError (Fs × XPath) :=
  match bd.get_runtime_directory fs with
  | .error e => .error (.xdg e)
  | .ok runtime_dir => ioWrap (write_file fs runtime_dir (bd.user_prefix.join path))

/-- Loop of the source free function `read_file` over the system-wide
list: first entry whose joined candidate passes the metadata probe. -/
def read_file_dirs (fs : Fs) ( shared_prefix path : XPath) : List XPath → Option XPath
  | [] => none
  | dir :: rest =>
    let full_path := (dir.join shared_prefix).join path
    if path_exists fs full_path then some full_path
    else read_file_dirs fs shared_prefix path rest

/-- Source free function `read_file`: the home-rooted candidate first when
the root is present, then the system-wide list in stored order. -/
def read_file (fs : Fs) (home : Option XPath) (dirs : List XPath)
    ( user_prefix shared_prefix path : XPath) : Option XPath :=
  match home with
  | some home =>
    let full_path := (home.join user_prefix).join path
    if path_exists fs full_path then some full_path
    else read_file_dirs fs shared_prefix path dirs
  | none => read_file_dirs fs shared_prefix path dirs

/-- Source `find_config_file`. -/
def BaseDirectories.find_config_file (fs : Fs) (bd : BaseDirectories) (path : XPath) :
    Option XPath :=
  read_file fs bd.config_home bd.config_dirs bd.user_prefix bd.shared_prefix path

/-- Source `find_data_file`. -/
def BaseDirectories.find_data_file (fs : Fs) (bd : BaseDirectories) (path : XPath) :
    Option XPath :=
  read_file fs bd.data_home bd.data_dirs bd.user_prefix bd.shared_prefix path

/-- Source `find_cache_file`: home-rooted directory only. -/
def BaseDirectories.find_cache_file (fs : Fs) (bd : BaseDirectories) (path : XPath) :
    Option XPath :=
  read_file fs bd.cache_home [] bd.user_prefix bd.shared_prefix path

/-- Source `find_state_file`: home-rooted directory only. -/
def BaseDirectories.find_state_file (fs : Fs) (bd : BaseDirectories) (path : XPath) :
    Option XPath :=
  read_file fs bd.state_home [] bd.user_prefix bd.shared_prefix path

/-- Source `find_runtime_file`: `None`, not an error, when the guard
fails. -/
def BaseDirectories.find_runtime_file (fs : Fs) (bd : BaseDirectories) (path : XPath) :
    Option XPath :=
  match bd.get_runtime_directory fs with
  | .error _ => none
  | .ok runtime_dir =>
    read_file fs (some runtime_dir) [] bd.user_prefix bd.shared_prefix path

/-- Source free function `create_directory`: the full joined path itself
is the directory created. -/
def create_directory (fs : Fs) (home : Option XPath) (path : XPath) :
    Except IoError (Fs × XPath) :=
  match home with
  | none => .error (.xdg .HomeMissing)
  | some home =>
    let full_path := home.join path
    match fs.create_dir_all full_path with
    | .error e => .error (.io e)
    | .ok fs2 => .ok (fs2, full_path)

/-- Source `create_runtime_directory`: the guard first. -/
def BaseDirectories.create_runtime_directory (fs : Fs) (bd : BaseDirectories) (path : XPath) :
    Except IoError (Fs × XPath) :=
  match bd.get_runtime_directory fs with
  | .error e => .error (.xdg e)
  | .ok runtime_dir => create_directory fs (some runtime_dir) (bd.user_prefix.join path)

/-- Helper `read_dir` of the source's `list_files`: entries of a readable
directory as full paths, an unreadable directory contributing nothing. -/
def list_dir_entries (fs : Fs) (dir : XPath) : List XPath :=
  match fs.readDir dir with
  | .ok names => names.map (fun name => dir.join ⟨false, [name]⟩)
  | .error _ => []

/-- Source free function `list_files`: home-rooted entries first, then each
system-wide directory in stored order. -/
def list_files (fs : Fs) (home : Option XPath) (dirs : List XPath)
    ( user_prefix shared_prefix path : XPath) : List XPath :=
  (match home with
   | some home => list_dir_entries fs ((home.join user_prefix).join path)
   | none => []) ++
  (dirs.map (fun dir => list_dir_entries fs ((dir.join shared_prefix).join path))).flatten

/-- Source `list_runtime_files`: an empty collection, not an error, when
the guard fails. -/
def BaseDirectories.list_runtime_files (fs : Fs) (bd : BaseDirectories) (path : XPath) :
    List XPath :=
  match bd.get_runtime_directory fs with
  | .ok runtime_dir =>
    list_files fs (some runtime_dir) [] bd.user_prefix bd.shared_prefix path
  | .error _ => []

/-- Source `FileFindIterator`: the remaining two-ended window over the
pre-joined search directories, plus the relative path re-probed at each
step. -/
structure FileFindIterator where
  search_dirs : List XPath
  relpath : XPath
deriving DecidableEq, Repr

/-- Source `FileFindIterator::new`: the system-wide directories in reverse
stored order (each joined with the shared prefix), then the home-rooted
directory (joined with the user prefix). -/
def FileFindIterator.new (home : Option XPath) (dirs : List XPath)
    ( user_prefix shared_prefix path : XPath) : FileFindIterator :=
  { search_dirs :=
      dirs.reverse.map (fun dir => dir.join shared_prefix) ++
        (match home with
         | some home => [home.join user_prefix]
         | none => []),
    relpath := path }

/-- The loop shared by `Iterator::next` and `DoubleEndedIterator::next_back`:
scan the given end of the window for the first existing candidate,
returning it with the directories not yet consumed. -/
def ffiFind (fs : Fs) (relpath : XPath) : List XPath → Option (XPath × List XPath)
  | [] => none
  | dir :: rest =>
    let candidate := dir.join relpath
    if path_exists fs candidate then some (candidate, rest)
    else ffiFind fs relpath rest

/-- Source `Iterator::next` for `FileFindIterator`: consume from the front
(lowest priority end). -/
def FileFindIterator.next (fs : Fs) (it : FileFindIterator) :
    Option (XPath × FileFindIterator) :=
  (ffiFind fs it.relpath it.search_dirs).map
    (fun r => (r.1, { search_dirs := r.2, relpath := it.relpath }))

/-- Source `DoubleEndedIterator::next_back`: consume from the back (highest
priority end). -/
def FileFindIterator.next_back (fs : Fs) (it : FileFindIterator) :
    Option (XPath × FileFindIterator) :=
  (ffiFind fs it.relpath it.search_dirs.reverse).map
    (fun r => (r.1, { search_dirs := r.2.reverse, relpath := it.relpath }))

/-- Source `find_config_files`. -/
def BaseDirectories.find_config_files (bd : BaseDirectories) (path : XPath) :
    FileFindIterator :=
  FileFindIterator.new bd.config_home bd.config_dirs bd.user_prefix bd.shared_prefix path

/-- Source `find_data_files`. -/
def BaseDirectories.find_data_files (bd : BaseDirectories) (path : XPath) :
    FileFindIterator :=
  FileFindIterator.new bd.data_home bd.data_dirs bd.user_prefix bd.shared_prefix path

/-- Consume the iterator by an arbitrary interleaving of `next` (a `true`
pick) and `next_back` (a `false` pick), stopping when an end returns
`none`: the first list collects the front productions in production order,
the second the back productions in reverse production order, so that the
two lists concatenated stand in forward (lowest-to-highest priority)
order. -/
def FileFindIterator.drain (fs : Fs) : List Bool → FileFindIterator →
    List XPath × List XPath
  | [], _ => ([], [])
  | true :: picks, it =>
    match it.next fs with
    | none => ([], [])
    | some (found, it2) =>
      let rest := FileFindIterator.drain fs picks it2
      (found :: rest.1, rest.2)
  | false :: picks, it =>
    match it.next_back fs with
    | none => ([], [])
    | some (found, it2) =>
      let rest := FileFindIterator.drain fs picks it2
      (rest.1, rest.2 ++ [found])

/-- The candidates an iterator state still covers that exist on the
filesystem, in window (lowest-to-highest priority) order. -/
def FileFindIterator.existingList (fs : Fs) (it : FileFindIterator) : List XPath :=
  (it.search_dirs.map (fun dir => dir.join it.relpath)).filter (path_exists fs)

/-- The candidate list `read_file` probes, in its probe order: the
home-rooted candidate first when the root is present, then the system-wide
directories in stored order. -/
def find_candidates (home : Option XPath) (dirs : List XPath)
    ( user_prefix shared_prefix path : XPath) : List XPath :=
  (match home with
   | some home => [(home.join user_prefix).join path]
   | none => []) ++
  dirs.map (fun dir => (dir.join shared_prefix).join path)

/-- Source `get_config_home`. -/
def BaseDirectories.get_config_home (bd : BaseDirectories) : Option XPath :=
  bd.config_home.map (fun home => home.join bd.user_prefix)

/-- Source `get_data_dirs`. -/
def BaseDirectories.get_data_dirs (bd : BaseDirectories) : List XPath :=
  bd.data_dirs.map (fun p => p.join bd.shared_prefix)

/-- Source `get_config_dirs`. -/
def BaseDirectories.get_config_dirs (bd : BaseDirectories) : List XPath :=
  bd.config_dirs.map (fun p => p.join bd.shared_prefix)

/-! ## Shared lemmas -/

/-- The system-wide loop of `read_file` returns the first existing
candidate of the mapped directory list. -/
theorem read_file_dirs_eq_find? (fs : Fs) ( shared_prefix path : XPath)
    (dirs : List XPath) :
    read_file_dirs fs shared_prefix path dirs =
      (dirs.map (fun dir => (dir.join shared_prefix).join path)).find? (path_exists fs) := by
  induction dirs with
  | nil => rfl
  | cons d rest ih =>
    by_cases h : path_exists fs ((d.join shared_prefix).join path)
    · simp [read_file_dirs, h, List.find?_cons_of_pos]
    · simp only [read_file_dirs, List.map_cons]
      rw [List.find?_cons_of_neg _ (by simp [h]), if_neg (by simp [h])]
      exact ih

/-- `read_file` returns the first existing candidate of its probe list. -/
theorem read_file_eq_find? (fs : Fs) (home : Option XPath) (dirs : List XPath)
    ( user_prefix shared_prefix path : XPath) :
    read_file fs home dirs user_prefix shared_prefix path =
      (find_candidates home dirs user_prefix shared_prefix path).find? (path_exists fs) := by
  cases home with
  | none => simpa [read_file, find_candidates] using read_file_dirs_eq_find? fs shared_prefix path dirs
  | some h =>
    by_cases hex : path_exists fs ((h.join user_prefix).join path)
    · simp [read_file, find_candidates, hex, List.find?_cons_of_pos]
    · simp only [read_file, find_candidates, List.map_cons]
      rw [if_neg (by simp [hex])]
      rw [List.cons_append, List.nil_append, List.find?_cons_of_neg _ (by simp [hex])]
      exact read_file_dirs_eq_find? fs shared_prefix path dirs

/-! ## C1 -/

/-- C1: for every configuration and relative path, `find_config_file` (and
`find_data_file`; `find_cache_file` and `find_state_file` with only the
home-rooted candidate) probes its candidates in strict priority order —
the home-rooted candidate first when the category root is present, then
each system-wide directory in stored list order — and returns the first
candidate whose metadata probe succeeds, `none` when no candidate exists;
in particular when the home-rooted candidate exists it is returned, so the
home-rooted candidate wins over any system candidate. -/
theorem find_file_first_existing_candidate (fs : Fs) (bd : BaseDirectories) (path : XPath) :
    bd.find_config_file fs path =
      (find_candidates bd.config_home bd.config_dirs bd.user_prefix bd.shared_prefix
        path).find? (path_exists fs) ∧
    bd.find_data_file fs path =
      (find_candidates bd.data_home bd.data_dirs bd.user_prefix bd.shared_prefix
        path).find? (path_exists fs) ∧
    bd.find_cache_file fs path =
      (find_candidates bd.cache_home [] bd.user_prefix bd.shared_prefix
        path).find? (path_exists fs) ∧
    bd.find_state_file fs path =
      (find_candidates bd.state_home [] bd.user_prefix bd.shared_prefix
        path).find? (path_exists fs) ∧
    (∀ home, bd.config_home = some home →
      path_exists fs ((home.join bd.user_prefix).join path) = true →
      bd.find_config_file fs path = some ((home.join bd.user_prefix).join path)) := by
  refine ⟨read_file_eq_find? .., read_file_eq_find? .., read_file_eq_find? ..,
    read_file_eq_find? .., ?_⟩
  intro home hh hex
  simp [BaseDirectories.find_config_file, read_file, hh, hex]

/-- C1 witness: with every probe succeeding, both the home-rooted and the
system candidate for `"f"` exist, and the home-rooted one is returned. -/
theorem find_file_first_existing_candidate_witness :
    BaseDirectories.find_config_file
        ⟨fun _ => .ok 0, fun _ => .ok [], fun _ => none, [], []⟩
        ⟨some ⟨true, ["home"]⟩, ⟨false, ["app"]⟩, ⟨false, ["app"]⟩, none,
          some ⟨true, ["home", ".config"]⟩, none, none, [], [⟨true, ["etc", "xdg"]⟩], none⟩
        ⟨false, ["f"]⟩ = some ⟨true, ["home", ".config", "app", "f"]⟩ :=
  (find_file_first_existing_candidate
    ⟨fun _ => .ok 0, fun _ => .ok [], fun _ => none, [], []⟩
    ⟨some ⟨true, ["home"]⟩, ⟨false, ["app"]⟩, ⟨false, ["app"]⟩, none,
      some ⟨true, ["home", ".config"]⟩, none, none, [], [⟨true, ["etc", "xdg"]⟩], none⟩
    ⟨false, ["f"]⟩).2.2.2.2 ⟨true, ["home", ".config"]⟩ rfl (by decide)

/-! ## C2 -/

/-- C2: `get_runtime_directory`, consulting the world on every call, fails
with `Missing` when no runtime directory is configured; otherwise it first
attempts to enumerate the directory (failure giving `Inaccessible` wrapping
the I/O error), then reads the permission bits (failure giving
`Inaccessible`), fails with `Insecure` carrying the observed permissions
when any bit of the mask `0o077` is set, and otherwise returns the path;
`has_runtime_directory` is true exactly when it succeeds, so mode `0o770`
makes it fail with `Insecure` and mode `0o700` makes both succeed. -/
theorem get_runtime_directory_guard (fs : Fs) (bd : BaseDirectories) :
    (bd.runtime_dir = none →
      bd.get_runtime_directory fs = .error .XdgRuntimeDirMissing) ∧
    (∀ rd, bd.runtime_dir = some rd →
      (∀ e, fs.readDir rd = .error e →
        bd.get_runtime_directory fs = .error (.XdgRuntimeDirInaccessible rd e)) ∧
      (∀ entries e, fs.readDir rd = .ok entries → fs.metadata rd = .error e →
        bd.get_runtime_directory fs = .error (.XdgRuntimeDirInaccessible rd e)) ∧
      (∀ entries mode, fs.readDir rd = .ok entries → fs.metadata rd = .ok mode →
        mode &&& 0o077 ≠ 0 →
        bd.get_runtime_directory fs = .error (.XdgRuntimeDirInsecure rd mode)) ∧
      (∀ entries mode, fs.readDir rd = .ok entries → fs.metadata rd = .ok mode →
        mode &&& 0o077 = 0 → bd.get_runtime_directory fs = .ok rd) ∧
      (∀ entries, fs.readDir rd = .ok entries → fs.metadata rd = .ok 0o770 →
        bd.get_runtime_directory fs = .error (.XdgRuntimeDirInsecure rd 0o770) ∧
        bd.has_runtime_directory fs = false) ∧
      (∀ entries, fs.readDir rd = .ok entries → fs.metadata rd = .ok 0o700 →
        bd.get_runtime_directory fs = .ok rd ∧ bd.has_runtime_directory fs = true)) ∧
    bd.has_runtime_directory fs = exOk (bd.get_runtime_directory fs) := by
  refine ⟨fun h => by simp [BaseDirectories.get_runtime_directory, h], ?_, rfl⟩
  intro rd hrd
  refine ⟨?_, ?_, ?_, ?_, ?_, ?_⟩
  · intro e he
    simp [BaseDirectories.get_runtime_directory, hrd, he]
  · intro entries e h1 h2
    simp [BaseDirectories.get_runtime_directory, hrd, h1, h2]
  · intro entries mode h1 h2 h3
    simp [BaseDirectories.get_runtime_directory, hrd, h1, h2, h3]
  · intro entries mode h1 h2 h3
    simp [BaseDirectories.get_runtime_directory, hrd, h1, h2, h3]
  · intro entries h1 h2
    have h3 : (0o770 : Nat) &&& 0o077 ≠ 0 := by decide
    constructor
    · simp [BaseDirectories.get_runtime_directory, hrd, h1, h2, h3]
    · simp [BaseDirectories.has_runtime_directory, BaseDirectories.get_runtime_directory,
        hrd, h1, h2, h3, exOk]
  · intro entries h1 h2
    have h3 : (0o700 : Nat) &&& 0o077 = 0 := by decide
    constructor
    · simp [BaseDirectories.get_runtime_directory, hrd, h1, h2, h3]
    · simp [BaseDirectories.has_runtime_directory, BaseDirectories.get_runtime_directory,
        hrd, h1, h2, h3, exOk]

/-- C2 witness: with no runtime directory configured, the guard fails with
the `Missing` error. -/
theorem get_runtime_directory_guard_witness :
    BaseDirectories.get_runtime_directory
        ⟨fun _ => .ok 0, fun _ => .ok [], fun _ => none, [], []⟩
        ⟨none, ⟨false, []⟩, ⟨false, []⟩, none, none, none, none, [], [], none⟩ =
      .error .XdgRuntimeDirMissing :=
  (get_runtime_directory_guard
    ⟨fun _ => .ok 0, fun _ => .ok [], fun _ => none, [], []⟩
    ⟨none, ⟨false, []⟩, ⟨false, []⟩, none, none, none, none, [], [], none⟩).1 rfl

/-! ## C3 -/

/-- A failing scan of the shared iterator loop means no remaining candidate
exists. -/
theorem ffiFind_eq_none (fs : Fs) (relpath : XPath) (l : List XPath) :
    ffiFind fs relpath l = none ↔
      (l.map (fun dir => dir.join relpath)).filter (path_exists fs) = [] := by
  induction l with
  | nil => simp [ffiFind]
  | cons d rest ih =>
    by_cases h : path_exists fs (d.join relpath)
    · simp [ffiFind, h]
    · simp [ffiFind, h, ih]

/-- A successful scan of the shared iterator loop yields the head of the
remaining existing candidates, the tail being those of the rest of the
window. -/
theorem ffiFind_eq_some (fs : Fs) (relpath : XPath) (l rest : List XPath) (c : XPath)
    (h : ffiFind fs relpath l = some (c, rest)) :
    (l.map (fun dir => dir.join relpath)).filter (path_exists fs) =
      c :: (rest.map (fun dir => dir.join relpath)).filter (path_exists fs) := by
  induction l generalizing rest with
  | nil => simp [ffiFind] at h
  | cons d tail ih =>
    by_cases hex : path_exists fs (d.join relpath)
    · simp [ffiFind, hex] at h
      obtain ⟨rfl, rfl⟩ := h
      simp [hex]
    · simp only [ffiFind, if_neg (by simp [hex] : ¬ (path_exists fs (d.join relpath) = true))] at h
      simp only [List.map_cons]
      rw [List.filter_cons_of_neg (by simp [hex])]
      exact ih rest h

/-- `next` fails exactly when no remaining candidate exists. -/
theorem next_eq_none (fs : Fs) (it : FileFindIterator) :
    it.next fs = none ↔ FileFindIterator.existingList fs it = [] := by
  unfold FileFindIterator.next
  cases hf : ffiFind fs it.relpath it.search_dirs with
  | none => simpa [FileFindIterator.existingList] using (ffiFind_eq_none ..).mp hf
  | some r =>
    have := ffiFind_eq_some fs it.relpath it.search_dirs r.2 r.1 (by simpa using hf)
    simp [FileFindIterator.existingList, this]

/-- `next` yields the lowest-priority remaining existing candidate. -/
theorem next_eq_some (fs : Fs) (it it2 : FileFindIterator) (c : XPath)
    (h : it.next fs = some (c, it2)) :
    FileFindIterator.existingList fs it = c :: FileFindIterator.existingList fs it2 := by
  unfold FileFindIterator.next at h
  cases hf : ffiFind fs it.relpath it.search_dirs with
  | none => simp [hf] at h
  | some r =>
    rw [hf] at h
    simp only [Option.map_some'] at h
    obtain ⟨rfl, rfl⟩ : r.1 = c ∧
        ({ search_dirs := r.2, relpath := it.relpath } : FileFindIterator) = it2 := by
      constructor <;> { cases h; rfl }
    have := ffiFind_eq_some fs it.relpath it.search_dirs r.2 r.1 (by simpa using hf)
    simpa [FileFindIterator.existingList] using this

/-- `next_back` fails exactly when no remaining candidate exists. -/
theorem next_back_eq_none (fs : Fs) (it : FileFindIterator) :
    it.next_back fs = none ↔ FileFindIterator.existingList fs it = [] := by
  unfold FileFindIterator.next_back
  cases hf : ffiFind fs it.relpath it.search_dirs.reverse with
  | none =>
    have := (ffiFind_eq_none ..).mp hf
    simp only [List.map_reverse, List.filter_reverse] at this
    simpa [FileFindIterator.existingList] using this
  | some r =>
    have := ffiFind_eq_some fs it.relpath it.search_dirs.reverse r.2 r.1 (by simpa using hf)
    simp only [List.map_reverse, List.filter_reverse] at this
    have hne : FileFindIterator.existingList fs it ≠ [] := by
      intro hnil
      rw [FileFindIterator.existingList] at hnil
      simp [hnil] at this
    simp [hne]

/-- `next_back` yields the highest-priority remaining existing candidate. -/
theorem next_back_eq_some (fs : Fs) (it it2 : FileFindIterator) (c : XPath)
    (h : it.next_back fs = some (c, it2)) :
    FileFindIterator.existingList fs it = FileFindIterator.existingList fs it2 ++ [c] := by
  unfold FileFindIterator.next_back at h
  cases hf : ffiFind fs it.relpath it.search_dirs.reverse with
  | none => simp [hf] at h
  | some r =>
    rw [hf] at h
    simp only [Option.map_some'] at h
    obtain ⟨rfl, rfl⟩ : r.1 = c ∧
        ({ search_dirs := r.2.reverse, relpath := it.relpath } : FileFindIterator) = it2 := by
      constructor <;> { cases h; rfl }
    have hrev := ffiFind_eq_some fs it.relpath it.search_dirs.reverse r.2 r.1 (by simpa using hf)
    simp only [List.map_reverse, List.filter_reverse] at hrev
    have : FileFindIterator.existingList fs it =
        (r.1 :: ((r.2.map (fun dir => dir.join it.relpath)).filter (path_exists fs))).reverse := by
      rw [FileFindIterator.existingList, ← List.reverse_reverse
        ((it.search_dirs.map (fun dir => dir.join it.relpath)).filter (path_exists fs)), hrev]
    simpa [FileFindIterator.existingList] using this

/-- Every interleaving of front and back consumption long enough to exhaust
the iterator visits each remaining existing candidate exactly once, the
front productions followed by the back productions giving back the full
window in forward order. -/
theorem drain_parts (fs : Fs) (picks : List Bool) (it : FileFindIterator)
    (h : (FileFindIterator.existingList fs it).length ≤ picks.length) :
    (it.drain fs picks).1 ++ (it.drain fs picks).2 = FileFindIterator.existingList fs it := by
  induction picks generalizing it with
  | nil =>
    simp only [List.length_nil, Nat.le_zero, List.length_eq_zero] at h
    simp [FileFindIterator.drain, h]
  | cons b picks ih =>
    cases b with
    | true =>
      cases hn : it.next fs with
      | none => simp [FileFindIterator.drain, hn, (next_eq_none fs it).mp hn]
      | some r =>
        have hr := next_eq_some fs it r.2 r.1 (by simpa using hn)
        have hlen : (FileFindIterator.existingList fs r.2).length ≤ picks.length := by
          rw [hr] at h
          simpa using h
        simp only [FileFindIterator.drain, hn]
        rw [List.cons_append, ih r.2 hlen, hr]
    | false =>
      cases hn : it.next_back fs with
      | none => simp [FileFindIterator.drain, hn, (next_back_eq_none fs it).mp hn]
      | some r =>
        have hr := next_back_eq_some fs it r.2 r.1 (by simpa using hn)
        have hlen : (FileFindIterator.existingList fs r.2).length ≤ picks.length := by
          rw [hr] at h
          simpa using h
        simp only [FileFindIterator.drain, hn]
        rw [← List.append_assoc, ih r.2 hlen, hr]

/-- Forward-only consumption produces exactly the remaining existing
candidates, in window (lowest-to-highest priority) order. -/
theorem drain_all_true (fs : Fs) (n : Nat) (it : FileFindIterator)
    (h : (FileFindIterator.existingList fs it).length ≤ n) :
    it.drain fs (List.replicate n true) = (FileFindIterator.existingList fs it, []) := by
  induction n generalizing it with
  | zero =>
    simp only [Nat.le_zero, List.length_eq_zero] at h
    simp [FileFindIterator.drain, h]
  | succ n ih =>
    rw [List.replicate_succ]
    cases hn : it.next fs with
    | none => simp [FileFindIterator.drain, hn, (next_eq_none fs it).mp hn]
    | some r =>
      have hr := next_eq_some fs it r.2 r.1 (by simpa using hn)
      have hlen : (FileFindIterator.existingList fs r.2).length ≤ n := by
        rw [hr] at h
        simpa using h
      simp [FileFindIterator.drain, hn, ih r.2 hlen, hr]

/-- Backward-only consumption produces exactly the remaining existing
candidates in reverse: each production comes from the high-priority end,
and the collected list (kept in forward order) is the whole window. -/
theorem drain_all_false (fs : Fs) (n : Nat) (it : FileFindIterator)
    (h : (FileFindIterator.existingList fs it).length ≤ n) :
    it.drain fs (List.replicate n false) = ([], FileFindIterator.existingList fs it) := by
  induction n generalizing it with
  | zero =>
    simp only [Nat.le_zero, List.length_eq_zero] at h
    simp [FileFindIterator.drain, h]
  | succ n ih =>
    rw [List.replicate_succ]
    cases hn : it.next_back fs with
    | none => simp [FileFindIterator.drain, hn, (next_back_eq_none fs it).mp hn]
    | some r =>
      have hr := next_back_eq_some fs it r.2 r.1 (by simpa using hn)
      have hlen : (FileFindIterator.existingList fs r.2).length ≤ n := by
        rw [hr] at h
        simpa using h
      simp [FileFindIterator.drain, hn, ih r.2 hlen, hr]

/-- A fresh iterator's window holds the reverse of `read_file`'s probe
list. -/
theorem existingList_new (fs : Fs) (home : Option XPath) (dirs : List XPath)
    ( user_prefix shared_prefix path : XPath) :
    FileFindIterator.existingList fs
        (FileFindIterator.new home dirs user_prefix shared_prefix path) =
      ((find_candidates home dirs user_prefix shared_prefix path).filter
        (path_exists fs)).reverse := by
  cases home with
  | none =>
    simp [FileFindIterator.existingList, FileFindIterator.new, find_candidates,
      List.filter_append, List.filter_reverse, List.map_map, Function.comp_def]
  | some h =>
    by_cases hc : path_exists fs ((h.join user_prefix).join path) <;>
      simp [FileFindIterator.existingList, FileFindIterator.new, find_candidates,
        List.filter_append, List.filter_reverse, List.map_map, Function.comp_def,
        List.filter_cons, hc]

/-- The number of remaining existing candidates never exceeds the window's
length. -/
theorem existingList_length_le (fs : Fs) (it : FileFindIterator) :
    (FileFindIterator.existingList fs it).length ≤ it.search_dirs.length := by
  calc (FileFindIterator.existingList fs it).length
      ≤ (it.search_dirs.map (fun dir => dir.join it.relpath)).length :=
        List.length_filter_le ..
    _ = it.search_dirs.length := List.length_map ..

/-- C3: `find_config_files` (and `find_data_files`) covers exactly the
existing candidates in lowest-to-highest priority order — the reverse of
`find_config_file`'s probe order; forward consumption yields that sequence,
backward consumption yields its exact reverse, and every interleaving of
the two ends long enough to exhaust the iterator visits each existing
candidate exactly once, the two ends meeting in the middle. -/
theorem find_files_yields_reverse_priority (fs : Fs) (bd : BaseDirectories) (path : XPath) :
    FileFindIterator.existingList fs (bd.find_config_files path) =
      ((find_candidates bd.config_home bd.config_dirs bd.user_prefix bd.shared_prefix
        path).filter (path_exists fs)).reverse ∧
    FileFindIterator.existingList fs (bd.find_data_files path) =
      ((find_candidates bd.data_home bd.data_dirs bd.user_prefix bd.shared_prefix
        path).filter (path_exists fs)).reverse ∧
    (∀ it : FileFindIterator,
      it.drain fs (List.replicate it.search_dirs.length true) =
        (FileFindIterator.existingList fs it, []) ∧
      it.drain fs (List.replicate it.search_dirs.length false) =
        ([], FileFindIterator.existingList fs it) ∧
      (∀ picks, (FileFindIterator.existingList fs it).length ≤ picks.length →
        (it.drain fs picks).1 ++ (it.drain fs picks).2 =
          FileFindIterator.existingList fs it)) := by
  refine ⟨existingList_new .., existingList_new .., fun it => ⟨?_, ?_, ?_⟩⟩
  · exact drain_all_true fs it.search_dirs.length it (existingList_length_le fs it)
  · exact drain_all_false fs it.search_dirs.length it (existingList_length_le fs it)
  · exact fun picks h => drain_parts fs picks it h

/-- C3 witness: both candidates of a two-directory window exist; taking one
step from the front and one from the back visits the system candidate then
the home candidate, meeting in the middle. -/
theorem find_files_yields_reverse_priority_witness :
    FileFindIterator.drain
        ⟨fun _ => .ok 0, fun _ => .ok [], fun _ => none, [], []⟩ [true, false]
        (BaseDirectories.find_config_files
          ⟨some ⟨true, ["home"]⟩, ⟨false, ["app"]⟩, ⟨false, ["app"]⟩, none,
            some ⟨true, ["home", ".config"]⟩, none, none, [], [⟨true, ["etc", "xdg"]⟩], none⟩
          ⟨false, ["f"]⟩) =
      ([⟨true, ["etc", "xdg", "app", "f"]⟩], [⟨true, ["home", ".config", "app", "f"]⟩]) := by
  decide

/-! ## C4 -/

/-- A path with components has as parent the path without its last one. -/
theorem XPath.parent_eq (p : XPath) (hp : p.components ≠ []) :
    p.parent = some ⟨p.absolute, p.components.dropLast⟩ := by
  cases hc : p.components with
  | nil => exact absurd hc hp
  | cons c cs => simp [XPath.parent, hc]

/-- A path has no parent exactly when it has no components. -/
theorem XPath.parent_eq_none (p : XPath) : p.parent = none ↔ p.components = [] := by
  cases hc : p.components with
  | nil => simp [XPath.parent, hc]
  | cons c cs => simp [XPath.parent, hc]

/-- Joining then taking the parent agrees with joining the argument's
parent, for a non-empty relative argument. -/
theorem XPath.join_parent (home : XPath) (qa : Bool) (qc : List String) (hq : qc ≠ []) :
    (home.join ⟨qa, qc⟩).parent = some (home.join ⟨qa, qc.dropLast⟩) := by
  cases qa with
  | true =>
    have h1 : home.join ⟨true, qc⟩ = ⟨true, qc⟩ := by simp [XPath.join]
    have h2 : home.join ⟨true, qc.dropLast⟩ = ⟨true, qc.dropLast⟩ := by simp [XPath.join]
    rw [h1, h2]
    exact XPath.parent_eq ⟨true, qc⟩ hq
  | false =>
    have h1 : home.join ⟨false, qc⟩ = ⟨home.absolute, home.components ++ qc⟩ := by
      simp [XPath.join]
    have h2 : home.join ⟨false, qc.dropLast⟩ =
        ⟨home.absolute, home.components ++ qc.dropLast⟩ := by
      simp [XPath.join]
    rw [h1, h2, XPath.parent_eq _ (fun hh => hq (List.append_eq_nil.mp hh).2)]
    simp [List.dropLast_append_of_ne_nil home.components hq]

/-- Joining a non-empty relative argument lengthens the component list by
exactly one more than joining its parent does. -/
theorem XPath.join_dropLast_length (home : XPath) (qa : Bool) (c : String) (cs : List String) :
    (home.join ⟨qa, (c :: cs).dropLast⟩).components.length + 1 =
      (home.join ⟨qa, c :: cs⟩).components.length := by
  cases qa with
  | true => simp [XPath.join, List.length_dropLast]
  | false =>
    simp [XPath.join, List.length_dropLast]
    omega

/-- A path is among its own created set. -/
theorem self_mem_selfAndAncestors (p : XPath) : p ∈ p.selfAndAncestors := by
  simp only [XPath.selfAndAncestors, List.mem_map]
  exact ⟨p.components, (List.mem_inits ..).mpr (List.prefix_refl _), rfl⟩

/-- A path's parent is among its created set. -/
theorem parent_mem_selfAndAncestors (p pp : XPath) (h : p.parent = some pp) :
    pp ∈ p.selfAndAncestors := by
  rcases p with ⟨pa, pc⟩
  cases pc with
  | nil => simp [XPath.parent] at h
  | cons c cs =>
    simp only [XPath.parent, Option.some_inj] at h
    subst h
    simp only [XPath.selfAndAncestors, List.mem_map]
    exact ⟨(c :: cs).dropLast, (List.mem_inits ..).mpr (List.dropLast_prefix _), rfl⟩

/-- Everything in a path's created set is at most as long as the path. -/
theorem mem_selfAndAncestors_length (p a : XPath) (h : a ∈ p.selfAndAncestors) :
    a.components.length ≤ p.components.length := by
  simp only [XPath.selfAndAncestors, List.mem_map] at h
  obtain ⟨cs, hcs, rfl⟩ := h
  exact ((List.mem_inits ..).mp hcs).length_le

/-- What a successful `write_file` does: it returns the joined path, leaves
every file alone, adds exactly the joined path's leading directories (the
parent's chain, or the base's own chain when the relative path has no
parent), so the result's parent exists afterwards while the result itself
is not created. -/
theorem write_file_ok (fs fs2 : Fs) (home q out : XPath)
    (h : write_file fs home q = .ok (fs2, out)) :
    out = home.join q ∧
    fs2.files = fs.files ∧
    fs2.dirs = fs.dirs ++ (match q.parent with
      | some parent => home.join parent
      | none => home).selfAndAncestors ∧
    (∀ pp, out.parent = some pp → pp ∈ fs2.dirs) ∧
    (q.components ≠ [] → (out ∈ fs2.dirs ↔ out ∈ fs.dirs)) := by
  rcases q with ⟨qa, qc⟩
  cases hqc : qc with
  | nil =>
    subst hqc
    have hpar : XPath.parent ⟨qa, []⟩ = none := by simp [XPath.parent]
    unfold write_file at h
    rw [hpar] at h
    unfold Fs.create_dir_all at h
    cases hce : fs.createErr home with
    | some e => rw [hce] at h; cases h
    | none =>
      rw [hce] at h
      obtain ⟨rfl, rfl⟩ : ({ fs with dirs := fs.dirs ++ home.selfAndAncestors } : Fs) = fs2 ∧
          home.join ⟨qa, []⟩ = out := by
        constructor <;> { cases h; rfl }
      refine ⟨rfl, rfl, by rw [hpar], ?_, fun hk => absurd rfl hk⟩
      intro pp hpp
      cases qa with
      | true => simp [XPath.join, XPath.parent] at hpp
      | false =>
        have hout : XPath.join home ⟨false, []⟩ = home := by
          simp [XPath.join]
        rw [hout] at hpp
        exact List.mem_append.mpr (Or.inr (parent_mem_selfAndAncestors home pp hpp))
  | cons c cs =>
    subst hqc
    have hpar : XPath.parent ⟨qa, c :: cs⟩ = some ⟨qa, (c :: cs).dropLast⟩ :=
      XPath.parent_eq _ (by simp)
    replace h : (match fs.create_dir_all (home.join ⟨qa, (c :: cs).dropLast⟩) with
        | Except.error e => Except.error e
        | Except.ok fs3 => Except.ok (fs3, home.join ⟨qa, c :: cs⟩)) =
      Except.ok (fs2, out) := h
    unfold Fs.create_dir_all at h
    cases hce : fs.createErr (home.join ⟨qa, (c :: cs).dropLast⟩) with
    | some e => rw [hce] at h; cases h
    | none =>
      rw [hce] at h
      obtain ⟨rfl, rfl⟩ : ({ fs with dirs :=
            fs.dirs ++ (home.join ⟨qa, (c :: cs).dropLast⟩).selfAndAncestors } : Fs) = fs2 ∧
          home.join ⟨qa, c :: cs⟩ = out := by
        constructor <;> { cases h; rfl }
      refine ⟨rfl, rfl, by rw [hpar], ?_, ?_⟩
      · intro pp hpp
        rw [XPath.join_parent home qa (c :: cs) (by simp), Option.some_inj] at hpp
        subst hpp
        exact List.mem_append.mpr (Or.inr (self_mem_selfAndAncestors _))
      · intro _
        simp only [List.mem_append, or_iff_left_iff_imp]
        intro hmem
        have hle := mem_selfAndAncestors_length _ _ hmem
        have hlen := XPath.join_dropLast_length home qa c cs
        omega

/-- C4: a successful `place_config_file` (and likewise `place_data_file`,
`place_cache_file`, `place_state_file`) recursively creates all leading
directories of the resulting path — the joined path's parent, or the whole
base directory when the joined relative path has no parent — without
creating the file itself, returns exactly the path `get_config_file`
returns, and afterwards the parent directory of that path exists. -/
theorem place_file_creates_leading_directories (fs : Fs) (bd : BaseDirectories)
    (path : XPath) :
    (∀ fs2 out, bd.place_config_file fs path = .ok (fs2, out) →
      bd.get_config_file path = some out ∧
      fs2.files = fs.files ∧
      (∀ pp, out.parent = some pp → pp ∈ fs2.dirs) ∧
      ((bd.user_prefix.join path).components ≠ [] → (out ∈ fs2.dirs ↔ out ∈ fs.dirs)) ∧
      (∀ home, bd.config_home = some home →
        fs2.dirs = fs.dirs ++ (match (bd.user_prefix.join path).parent with
          | some parent => home.join parent
          | none => home).selfAndAncestors)) ∧
    (∀ fs2 out, bd.place_data_file fs path = .ok (fs2, out) →
      bd.get_data_file path = some out ∧ fs2.files = fs.files ∧
      (∀ pp, out.parent = some pp → pp ∈ fs2.dirs)) ∧
    (∀ fs2 out, bd.place_cache_file fs path = .ok (fs2, out) →
      bd.get_cache_file path = some out ∧ fs2.files = fs.files ∧
      (∀ pp, out.parent = some pp → pp ∈ fs2.dirs)) ∧
    (∀ fs2 out, bd.place_state_file fs path = .ok (fs2, out) →
      bd.get_state_file path = some out ∧ fs2.files = fs.files ∧
      (∀ pp, out.parent = some pp → pp ∈ fs2.dirs)) := by
  refine ⟨?_, ?_, ?_, ?_⟩
  · intro fs2 out h
    unfold BaseDirectories.place_config_file at h
    cases hch : bd.config_home with
    | none => rw [hch] at h; cases h
    | some home =>
      rw [hch] at h
      replace h : ioWrap (write_file fs home (bd.user_prefix.join path)) =
        Except.ok (fs2, out) := h
      cases hw : write_file fs home (bd.user_prefix.join path) with
      | error e => rw [hw] at h; simp [ioWrap] at h
      | ok r =>
        rw [hw] at h
        obtain rfl : r = (fs2, out) := by cases h; rfl
        obtain ⟨hout, hfiles, hdirs, hpar, hnc⟩ := write_file_ok fs fs2 home _ out hw
        refine ⟨by simp [BaseDirectories.get_config_file, hch, hout], hfiles, hpar, hnc, ?_⟩
        intro home2 hh2
        rw [Option.some_inj] at hh2
        subst hh2
        exact hdirs
  · intro fs2 out h
    unfold BaseDirectories.place_data_file at h
    cases hch : bd.data_home with
    | none => rw [hch] at h; cases h
    | some home =>
      rw [hch] at h
      replace h : ioWrap (write_file fs home (bd.user_prefix.join path)) =
        Except.ok (fs2, out) := h
      cases hw : write_file fs home (bd.user_prefix.join path) with
      | error e => rw [hw] at h; simp [ioWrap] at h
      | ok r =>
        rw [hw] at h
        obtain rfl : r = (fs2, out) := by cases h; rfl
        obtain ⟨hout, hfiles, _, hpar, _⟩ := write_file_ok fs fs2 home _ out hw
        exact ⟨by simp [BaseDirectories.get_data_file, hch, hout], hfiles, hpar⟩
  · intro fs2 out h
    unfold BaseDirectories.place_cache_file at h
    cases hch : bd.cache_home with
    | none => rw [hch] at h; cases h
    | some home =>
      rw [hch] at h
      replace h : ioWrap (write_file fs home (bd.user_prefix.join path)) =
        Except.ok (fs2, out) := h
      cases hw : write_file fs home (bd.user_prefix.join path) with
      | error e => rw [hw] at h; simp [ioWrap] at h
      | ok r =>
        rw [hw] at h
        obtain rfl : r = (fs2, out) := by cases h; rfl
        obtain ⟨hout, hfiles, _, hpar, _⟩ := write_file_ok fs fs2 home _ out hw
        exact ⟨by simp [BaseDirectories.get_cache_file, hch, hout], hfiles, hpar⟩
  · intro fs2 out h
    unfold BaseDirectories.place_state_file at h
    cases hch : bd.state_home with
    | none => rw [hch] at h; cases h
    | some home =>
      rw [hch] at h
      replace h : ioWrap (write_file fs home (bd.user_prefix.join path)) =
        Except.ok (fs2, out) := h
      cases hw : write_file fs home (bd.user_prefix.join path) with
      | error e => rw [hw] at h; simp [ioWrap] at h
      | ok r =>
        rw [hw] at h
        obtain rfl : r = (fs2, out) := by cases h; rfl
        obtain ⟨hout, hfiles, _, hpar, _⟩ := write_file_ok fs fs2 home _ out hw
        exact ⟨by simp [BaseDirectories.get_state_file, hch, hout], hfiles, hpar⟩

/-- C4 witness: placing `app/f` under `/home/.config` creates
`/home/.config/app` and its chain, returns `/home/.config/app/f` — the
`get_config_file` result — and does not create the file itself. -/
theorem place_file_creates_leading_directories_witness :
    BaseDirectories.place_config_file
        ⟨fun _ => .ok 0, fun _ => .ok [], fun _ => none, [], []⟩
        ⟨some ⟨true, ["home"]⟩, ⟨false, ["app"]⟩, ⟨false, ["app"]⟩, none,
          some ⟨true, ["home", ".config"]⟩, none, none, [], [], none⟩
        ⟨false, ["f"]⟩ =
      .ok (⟨fun _ => .ok 0, fun _ => .ok [], fun _ => none,
        [⟨true, []⟩, ⟨true, ["home"]⟩, ⟨true, ["home", ".config"]⟩,
          ⟨true, ["home", ".config", "app"]⟩], []⟩,
        ⟨true, ["home", ".config", "app", "f"]⟩) := by
  rfl

/-! ## C5 -/

/-- C5: `get_config_file` (and likewise `get_data_file`, `get_cache_file`,
`get_state_file`) takes no filesystem world at all — its type has no `Fs`
argument, so it performs no I/O and creates no directories — and it returns
`some (root.join (user_prefix.join p))` exactly when the category root is
present and `none` when it is absent, so its result is a pure function of
the category root, the user prefix and the path: two configurations
agreeing on those agree on every result. -/
theorem get_file_is_pure_join (bd bd2 : BaseDirectories) (path : XPath) :
    (bd.config_home = bd2.config_home → bd.user_prefix = bd2.user_prefix →
      bd.get_config_file path = bd2.get_config_file path) ∧
    (∀ home, bd.config_home = some home →
      bd.get_config_file path = some (home.join (bd.user_prefix.join path))) ∧
    (bd.config_home = none → bd.get_config_file path = none) ∧
    (bd.data_home = bd2.data_home → bd.user_prefix = bd2.user_prefix →
      bd.get_data_file path = bd2.get_data_file path) ∧
    (∀ home, bd.data_home = some home →
      bd.get_data_file path = some (home.join (bd.user_prefix.join path))) ∧
    (bd.data_home = none → bd.get_data_file path = none) ∧
    (bd.cache_home = bd2.cache_home → bd.user_prefix = bd2.user_prefix →
      bd.get_cache_file path = bd2.get_cache_file path) ∧
    (∀ home, bd.cache_home = some home →
      bd.get_cache_file path = some (home.join (bd.user_prefix.join path))) ∧
    (bd.cache_home = none → bd.get_cache_file path = none) ∧
    (bd.state_home = bd2.state_home → bd.user_prefix = bd2.user_prefix →
      bd.get_state_file path = bd2.get_state_file path) ∧
    (∀ home, bd.state_home = some home →
      bd.get_state_file path = some (home.join (bd.user_prefix.join path))) ∧
    (bd.state_home = none → bd.get_state_file path = none) :=
  ⟨fun h1 h2 => by simp [BaseDirectories.get_config_file, h1, h2],
   fun home hh => by simp [BaseDirectories.get_config_file, hh],
   fun hh => by simp [BaseDirectories.get_config_file, hh],
   fun h1 h2 => by simp [BaseDirectories.get_data_file, h1, h2],
   fun home hh => by simp [BaseDirectories.get_data_file, hh],
   fun hh => by simp [BaseDirectories.get_data_file, hh],
   fun h1 h2 => by simp [BaseDirectories.get_cache_file, h1, h2],
   fun home hh => by simp [BaseDirectories.get_cache_file, hh],
   fun hh => by simp [BaseDirectories.get_cache_file, hh],
   fun h1 h2 => by simp [BaseDirectories.get_state_file, h1, h2],
   fun home hh => by simp [BaseDirectories.get_state_file, hh],
   fun hh => by simp [BaseDirectories.get_state_file, hh]⟩

/-- C5 witness: a concrete `get_config_file` call is the plain join, and a
configuration without a config root returns `none`. -/
theorem get_file_is_pure_join_witness :
    BaseDirectories.get_config_file
        ⟨some ⟨true, ["home"]⟩, ⟨false, ["app"]⟩, ⟨false, ["app"]⟩, none,
          some ⟨true, ["home", ".config"]⟩, none, none, [], [], none⟩
        ⟨false, ["f"]⟩ = some ⟨true, ["home", ".config", "app", "f"]⟩ ∧
    BaseDirectories.get_config_file
        ⟨none, ⟨false, []⟩, ⟨false, []⟩, none, none, none, none, [], [], none⟩
        ⟨false, ["f"]⟩ = none := by
  constructor <;> rfl

/-! ## C6 -/

/-- C6 counterexample: constructing with prefix `app` and the absolute
profile `/p1` gives `user_prefix = prefix.join(profile) = /p1` and
`shared_prefix = app`, and `/p1` does not have `app` as a path prefix —
the claim's "user_prefix always has shared_prefix as a path prefix" fails
as stated. -/
theorem prefix_profile_invariant_counterexample :
    BaseDirectories.user_prefix
        (with_env_impl (parsePath "app") (parsePath "/p1") (parsePath "")
          (fun _ => none) (some (parsePath "/home/u"))) = parsePath "/p1" ∧
    BaseDirectories.shared_prefix
        (with_env_impl (parsePath "app") (parsePath "/p1") (parsePath "")
          (fun _ => none) (some (parsePath "/home/u"))) = parsePath "app" ∧
    XPath.starts_with
        (BaseDirectories.user_prefix
          (with_env_impl (parsePath "app") (parsePath "/p1") (parsePath "")
            (fun _ => none) (some (parsePath "/home/u"))))
        (BaseDirectories.shared_prefix
          (with_env_impl (parsePath "app") (parsePath "/p1") (parsePath "")
            (fun _ => none) (some (parsePath "/home/u")))) = false := by
  refine ⟨by decide, by decide, by decide⟩

/-- C6 (amended): every construction satisfies
`user_prefix = prefix.join(profile)` and `shared_prefix = prefix`; whenever
the profile is a relative path — any profile that is not absolute —
`user_prefix` has `shared_prefix` as a path prefix; `get_config_home`
applies `user_prefix` to the home-rooted root, `get_config_dirs` applies
only `shared_prefix` to each system-wide directory, and `find_config_file`
probes the home-rooted candidate under `user_prefix` and every system
candidate under `shared_prefix`. -/
theorem prefix_profile_semantics (pfx profile home : XPath)
    (env_var : String → Option String) (platform_home : Option XPath) (path : XPath) :
    BaseDirectories.user_prefix (with_env_impl pfx profile home env_var platform_home) =
      pfx.join profile ∧
    BaseDirectories.shared_prefix (with_env_impl pfx profile home env_var platform_home) =
      pfx ∧
    (profile.absolute = false → XPath.starts_with (pfx.join profile) pfx = true) ∧
    (∀ bd : BaseDirectories, ∀ h, bd.config_home = some h →
      bd.get_config_home = some (h.join bd.user_prefix)) ∧
    (∀ bd : BaseDirectories,
      bd.get_config_dirs = bd.config_dirs.map (fun d => d.join bd.shared_prefix)) ∧
    (∀ bd : BaseDirectories, ∀ fs h, bd.config_home = some h →
      bd.find_config_file fs path =
        ((h.join bd.user_prefix).join path ::
          bd.config_dirs.map (fun dir => (dir.join bd.shared_prefix).join path)).find?
          (path_exists fs)) := by
  refine ⟨rfl, rfl, ?_, ?_, ?_, ?_⟩
  · intro hrel
    have hj : pfx.join profile = ⟨pfx.absolute, pfx.components ++ profile.components⟩ := by
      simp [XPath.join, hrel]
    rw [hj, XPath.starts_with, List.isPrefixOf_iff_prefix]
    simp only [XPath.fullComponents]
    rw [← List.append_assoc]
    exact List.prefix_append ..
  · intro bd h hh
    simp [BaseDirectories.get_config_home, hh]
  · intro bd
    rfl
  · intro bd fs h hh
    rw [BaseDirectories.find_config_file, read_file_eq_find?]
    simp [find_candidates, hh]

/-- C6 witness: with prefix `app` and relative profile `p1`,
`get_config_home` ends in `app/p1` while a system config dir lookup keeps
only `app`. -/
theorem prefix_profile_semantics_witness :
    BaseDirectories.get_config_home
        (with_env_impl (parsePath "app") (parsePath "p1") (parsePath "/h")
          (fun _ => none) none) = some ⟨true, ["h", ".config", "app", "p1"]⟩ ∧
    BaseDirectories.get_config_dirs
        (with_env_impl (parsePath "app") (parsePath "p1") (parsePath "/h")
          (fun _ => none) none) = [⟨true, ["etc", "xdg", "app"]⟩] := by
  refine ⟨by decide, by decide⟩

/-! ## C7 -/

/-- How a system-wide list is resolved through `abspaths`: only absolute
entries are kept, a relative entry is discarded rather than substituted,
and an empty filtered list falls back to the (absolute, non-empty)
defaults. -/
theorem abspaths_getD_spec (o : Option String) (defaults : List XPath)
    (hdef : ∀ d ∈ defaults, d.absolute = true) (hne : defaults ≠ []) :
    (∀ d ∈ (o.bind abspaths).getD defaults, d.absolute = true) ∧
    (o.bind abspaths).getD defaults ≠ [] ∧
    (o = none → (o.bind abspaths).getD defaults = defaults) ∧
    (∀ s, o = some s →
      (o.bind abspaths).getD defaults =
        (if (((splitSep ':' s.data).map parseChars).filter (fun p => p.absolute)).isEmpty then
          defaults
        else ((splitSep ':' s.data).map parseChars).filter (fun p => p.absolute))) := by
  cases o with
  | none => exact ⟨hdef, hne, fun _ => rfl, fun s hs => by cases hs⟩
  | some s =>
    by_cases hemp : (((splitSep ':' s.data).map parseChars).filter (fun p => p.absolute)).isEmpty
    · have hval : ((some s).bind abspaths).getD defaults = defaults := by
        show (abspaths s).getD defaults = defaults
        simp only [abspaths]
        rw [if_pos hemp]
        rfl
      refine ⟨fun d hd => hdef d (by rwa [hval] at hd), by rw [hval]; exact hne, ?_, ?_⟩
      · intro hn
        exact absurd hn (by simp)
      · intro s2 hs2
        obtain rfl : s = s2 := Option.some_inj.mp hs2
        rw [hval, if_pos hemp]
    · have hval : ((some s).bind abspaths).getD defaults =
          ((splitSep ':' s.data).map parseChars).filter (fun p => p.absolute) := by
        show (abspaths s).getD defaults = _
        simp only [abspaths]
        rw [if_neg hemp]
        rfl
      refine ⟨?_, ?_, ?_, ?_⟩
      · intro d hd
        rw [hval] at hd
        exact (List.mem_filter.mp hd).2
      · rw [hval]
        intro hnil
        rw [← List.isEmpty_iff] at hnil
        exact hemp hnil
      · intro hn
        exact absurd hn (by simp)
      · intro s2 hs2
        obtain rfl : s = s2 := Option.some_inj.mp hs2
        rw [hval, if_neg hemp]

/-- C7: each system-wide list (`data_dirs`, `config_dirs`) is the
environment value split on the platform path-list separator and filtered to
absolute entries — a non-absolute entry is discarded, never substituted —
and when the filtered set is empty (variable unset, empty string, or all
entries relative) the hard-coded default list is used
(`/usr/local/share:/usr/share` for data, `/etc/xdg` for config), so the
stored list is never empty and holds only absolute paths. -/
theorem system_dir_lists_filtered_absolute (pfx profile home : XPath)
    (env_var : String → Option String) (platform_home : Option XPath) :
    ((∀ d ∈ BaseDirectories.data_dirs (with_env_impl pfx profile home env_var platform_home),
        d.absolute = true) ∧
      BaseDirectories.data_dirs (with_env_impl pfx profile home env_var platform_home) ≠ [] ∧
      (env_var "XDG_DATA_DIRS" = none →
        BaseDirectories.data_dirs (with_env_impl pfx profile home env_var platform_home) =
          [parsePath "/usr/local/share", parsePath "/usr/share"]) ∧
      (∀ s, env_var "XDG_DATA_DIRS" = some s →
        BaseDirectories.data_dirs (with_env_impl pfx profile home env_var platform_home) =
          (if (((splitSep ':' s.data).map parseChars).filter (fun p => p.absolute)).isEmpty then
            [parsePath "/usr/local/share", parsePath "/usr/share"]
          else ((splitSep ':' s.data).map parseChars).filter (fun p => p.absolute)))) ∧
    ((∀ d ∈ BaseDirectories.config_dirs (with_env_impl pfx profile home env_var platform_home),
        d.absolute = true) ∧
      BaseDirectories.config_dirs (with_env_impl pfx profile home env_var platform_home) ≠ [] ∧
      (env_var "XDG_CONFIG_DIRS" = none →
        BaseDirectories.config_dirs (with_env_impl pfx profile home env_var platform_home) =
          [parsePath "/etc/xdg"]) ∧
      (∀ s, env_var "XDG_CONFIG_DIRS" = some s →
        BaseDirectories.config_dirs (with_env_impl pfx profile home env_var platform_home) =
          (if (((splitSep ':' s.data).map parseChars).filter (fun p => p.absolute)).isEmpty then
            [parsePath "/etc/xdg"]
          else ((splitSep ':' s.data).map parseChars).filter (fun p => p.absolute)))) := by
  constructor
  · exact abspaths_getD_spec (env_var "XDG_DATA_DIRS")
      [parsePath "/usr/local/share", parsePath "/usr/share"] (by decide) (by decide)
  · exact abspaths_getD_spec (env_var "XDG_CONFIG_DIRS")
      [parsePath "/etc/xdg"] (by decide) (by decide)

/-- C7 witness: a value mixing one absolute and one relative entry keeps
only the absolute entry; an all-relative value falls back to the default
list. -/
theorem system_dir_lists_filtered_absolute_witness :
    BaseDirectories.data_dirs
        (with_env_impl (parsePath "") (parsePath "") (parsePath "/h")
          (fun name => if name = "XDG_DATA_DIRS" then some "/a:rel" else none) none) =
      [⟨true, ["a"]⟩] ∧
    BaseDirectories.data_dirs
        (with_env_impl (parsePath "") (parsePath "") (parsePath "/h")
          (fun name => if name = "XDG_DATA_DIRS" then some "rel1:rel2" else none) none) =
      [parsePath "/usr/local/share", parsePath "/usr/share"] := by
  refine ⟨by decide, by decide⟩

/-! ## C8 -/

/-- C8 counterexample: an explicit relative home override `rel` is used
verbatim, so `config_home` becomes the relative path `rel/.config`: a
non-`None` home-relative root is not always absolute. -/
theorem home_roots_absolute_counterexample :
    Option.map XPath.absolute
        (BaseDirectories.config_home
          (with_env_impl (parsePath "") (parsePath "") (parsePath "rel")
            (fun _ => none) none)) = some false := by
  decide

/-- A value accepted by `abspath` is absolute. -/
theorem abspath_absolute (s : String) (p : XPath) (h : abspath s = some p) :
    p.absolute = true := by
  simp only [abspath] at h
  by_cases ha : (parsePath s).absolute
  · rw [if_pos ha] at h
    obtain rfl := Option.some_inj.mp h
    exact ha
  · rw [if_neg ha] at h
    cases h

/-- A home-relative category root — environment override passed through
`abspath`, or the home joined with the default subpath — is absolute
whenever the resolved home is. -/
theorem home_root_absolute_aux (o : Option String) (homeOpt : Option XPath) (sub : XPath)
    (hh : ∀ h, homeOpt = some h → h.absolute = true) :
    ∀ r, (o.bind abspath).orElse (fun _ => homeOpt.map (fun h => h.join sub)) = some r →
      r.absolute = true := by
  intro r hr
  cases ho : o.bind abspath with
  | some p =>
    rw [ho] at hr
    replace hr : some p = some r := hr
    obtain rfl := Option.some_inj.mp hr
    cases o with
    | none => cases ho
    | some s => exact abspath_absolute s p (by simpa using ho)
  | none =>
    rw [ho] at hr
    replace hr : homeOpt.map (fun h => h.join sub) = some r := hr
    cases hm : homeOpt with
    | none => rw [hm] at hr; cases hr
    | some h =>
      rw [hm] at hr
      replace hr : some (h.join sub) = some r := hr
      obtain rfl := Option.some_inj.mp hr
      have hha := hh h hm
      by_cases hs : sub.absolute
      · simp [XPath.join, hs]
      · simp [XPath.join, hs, hha]

/-- C8 (amended): whenever the home actually used is an absolute path — an
explicit non-empty override that is absolute, or the platform home lookup
returning an absolute path — every non-`None` home-relative category root
(`data_home`, `config_home`, `cache_home`, `state_home`) is absolute. An
explicit relative override, used verbatim, breaks the invariant as
originally stated. -/
theorem home_roots_absolute (pfx profile home : XPath)
    (env_var : String → Option String) (platform_home : Option XPath)
    (hover : home.isEmpty = false → home.absolute = true)
    (hplat : ∀ h, platform_home = some h → h.absolute = true) :
    (∀ r, BaseDirectories.data_home (with_env_impl pfx profile home env_var platform_home) =
      some r → r.absolute = true) ∧
    (∀ r, BaseDirectories.config_home (with_env_impl pfx profile home env_var platform_home) =
      some r → r.absolute = true) ∧
    (∀ r, BaseDirectories.cache_home (with_env_impl pfx profile home env_var platform_home) =
      some r → r.absolute = true) ∧
    (∀ r, BaseDirectories.state_home (with_env_impl pfx profile home env_var platform_home) =
      some r → r.absolute = true) := by
  have hres : ∀ h, (if home.isEmpty = true then platform_home else some home) = some h →
      h.absolute = true := by
    intro h hh
    by_cases he : home.isEmpty = true
    · rw [if_pos he] at hh
      exact hplat h hh
    · rw [if_neg he] at hh
      obtain rfl := Option.some_inj.mp hh
      exact hover (by simpa using he)
  exact ⟨home_root_absolute_aux (env_var "XDG_DATA_HOME") _ _ hres,
    home_root_absolute_aux (env_var "XDG_CONFIG_HOME") _ _ hres,
    home_root_absolute_aux (env_var "XDG_CACHE_HOME") _ _ hres,
    home_root_absolute_aux (env_var "XDG_STATE_HOME") _ _ hres⟩

/-- C8 witness: with the absolute override `/home/u` and no environment,
`config_home` is `/home/u/.config` and the theorem certifies it absolute. -/
theorem home_roots_absolute_witness :
    BaseDirectories.config_home
        (with_env_impl (parsePath "") (parsePath "") (parsePath "/home/u")
          (fun _ => none) none) = some ⟨true, ["home", "u", ".config"]⟩ ∧
    XPath.absolute ⟨true, ["home", "u", ".config"]⟩ = true :=
  ⟨by decide,
   (home_roots_absolute (parsePath "") (parsePath "") (parsePath "/home/u")
      (fun _ => none) none (fun _ => by decide) (fun h hh => nomatch hh)).2.1
     ⟨true, ["home", "u", ".config"]⟩ (by decide)⟩

/-! ## C9 -/

/-- C9: when the runtime-directory guard fails — missing, inaccessible or
insecure — `find_runtime_file` returns `none` rather than an error and
`list_runtime_files` returns the empty collection rather than an error: the
find family never surfaces the runtime-directory error variants. -/
theorem find_runtime_swallows_guard_errors (fs : Fs) (bd : BaseDirectories) (path : XPath)
    (e : ErrorKind) (h : bd.get_runtime_directory fs = .error e) :
    bd.find_runtime_file fs path = none ∧ bd.list_runtime_files fs path = [] := by
  constructor
  · simp [BaseDirectories.find_runtime_file, h]
  · simp [BaseDirectories.list_runtime_files, h]

/-- C9 witness: a runtime directory with mode `0o770` makes the guard fail
with `Insecure`, and the find family reports plain absence. -/
theorem find_runtime_swallows_guard_errors_witness :
    BaseDirectories.find_runtime_file
        ⟨fun _ => .ok 0o770, fun _ => .ok [], fun _ => none, [], []⟩
        ⟨none, ⟨false, []⟩, ⟨false, []⟩, none, none, none, none, [], [],
          some ⟨true, ["run"]⟩⟩ ⟨false, ["f"]⟩ = none ∧
    BaseDirectories.list_runtime_files
        ⟨fun _ => .ok 0o770, fun _ => .ok [], fun _ => none, [], []⟩
        ⟨none, ⟨false, []⟩, ⟨false, []⟩, none, none, none, none, [], [],
          some ⟨true, ["run"]⟩⟩ ⟨false, ["f"]⟩ = [] :=
  find_runtime_swallows_guard_errors
    ⟨fun _ => .ok 0o770, fun _ => .ok [], fun _ => none, [], []⟩
    ⟨none, ⟨false, []⟩, ⟨false, []⟩, none, none, none, none, [], [],
      some ⟨true, ["run"]⟩⟩ ⟨false, ["f"]⟩
    (.XdgRuntimeDirInsecure ⟨true, ["run"]⟩ 0o770) rfl

/-! ## C10 -/

/-- C10: `get_runtime_file`, `place_runtime_file` and
`create_runtime_directory` all join the runtime directory with
`user_prefix` — the prefix including the profile segment — not
`shared_prefix`, producing exactly the same suffix
`user_prefix.join(path)` that the home-rooted `get_config_file` applies, so
a configured profile changes runtime paths exactly as it changes
home-rooted category paths. -/
theorem runtime_ops_use_profile_segment (fs : Fs) (bd : BaseDirectories) (path : XPath)
    (rd : XPath) (hrd : bd.get_runtime_directory fs = .ok rd) :
    bd.get_runtime_file fs path = .ok (rd.join (bd.user_prefix.join path)) ∧
    (∀ fs2 out, bd.place_runtime_file fs path = .ok (fs2, out) →
      out = rd.join (bd.user_prefix.join path)) ∧
    (∀ fs2 out, bd.create_runtime_directory fs path = .ok (fs2, out) →
      out = rd.join (bd.user_prefix.join path)) ∧
    (∀ h, bd.config_home = some h →
      bd.get_config_file path = some (h.join (bd.user_prefix.join path))) := by
  refine ⟨?_, ?_, ?_, ?_⟩
  · simp [BaseDirectories.get_runtime_file, hrd]
  · intro fs2 out h
    unfold BaseDirectories.place_runtime_file at h
    rw [hrd] at h
    replace h : ioWrap (write_file fs rd (bd.user_prefix.join path)) =
      Except.ok (fs2, out) := h
    cases hw : write_file fs rd (bd.user_prefix.join path) with
    | error e => rw [hw] at h; simp [ioWrap] at h
    | ok r =>
      rw [hw] at h
      obtain rfl : r = (fs2, out) := by cases h; rfl
      exact (write_file_ok fs fs2 rd _ out hw).1
  · intro fs2 out h
    unfold BaseDirectories.create_runtime_directory at h
    rw [hrd] at h
    replace h : (match fs.create_dir_all (rd.join (bd.user_prefix.join path)) with
        | Except.error e => Except.error (IoError.io e)
        | Except.ok fs3 => Except.ok (fs3, rd.join (bd.user_prefix.join path))) =
      Except.ok (fs2, out) := h
    cases hc : fs.create_dir_all (rd.join (bd.user_prefix.join path)) with
    | error e => rw [hc] at h; cases h
    | ok fs3 =>
      rw [hc] at h
      obtain ⟨rfl, rfl⟩ : fs3 = fs2 ∧ rd.join (bd.user_prefix.join path) = out := by
        constructor <;> { cases h; rfl }
      rfl
  · intro h hh
    simp [BaseDirectories.get_config_file, hh]

/-- C10 witness: with profile segment `p1` configured, the runtime file for
`f` lives at `run/app/p1/f` — the user prefix, profile included. -/
theorem runtime_ops_use_profile_segment_witness :
    BaseDirectories.get_runtime_file
        ⟨fun _ => .ok 0o700, fun _ => .ok [], fun _ => none, [], []⟩
        ⟨none, ⟨false, ["app"]⟩, ⟨false, ["app", "p1"]⟩, none, none, none, none, [], [],
          some ⟨true, ["run"]⟩⟩ ⟨false, ["f"]⟩ =
      .ok ⟨true, ["run", "app", "p1", "f"]⟩ :=
  (runtime_ops_use_profile_segment
    ⟨fun _ => .ok 0o700, fun _ => .ok [], fun _ => none, [], []⟩
    ⟨none, ⟨false, ["app"]⟩, ⟨false, ["app", "p1"]⟩, none, none, none, none, [], [],
      some ⟨true, ["run"]⟩⟩ ⟨false, ["f"]⟩ ⟨true, ["run"]⟩ rfl).1

end Xdg
